import Mathlib

/-!
Verification of the Galactica userland stack (repository LinkNavi/Galactica)
against its natural-language specification.

The development shallowly embeds the relevant parts of the three programs:

* `Dreamland` (the package manager, `src/Dreamland/src/main.cpp`):
  dependency resolution (`resolve_dependencies`), the install command
  (`install_package`), binary extraction (`extract_zst_package` /
  `install_from_arch`), and the mirror sync loop (`sync_arch_databases` /
  `sync`).
* `AirRide` (the init system, `src/AirRide/Init/src/main.cpp`):
  service start recursion (`start_service_internal`), the reap loop's
  per-service restart scheduling (`reap_zombies`), and service loading
  (`parse_service_file` / `load_services`).
* `Poyo` (the login program, `src/Poyo/src/main.c`, compiled without
  `USE_PAM` as in the shipped build): shadow authentication
  (`authenticate_user`), privilege drop and shell exec (`start_shell`),
  and the startup sequence of `main`.

External effects (network, fork, the kernel credential calls, archive
contents) are modelled as explicit oracle parameters; file-system writes are
modelled as action lists.  Machine integers that cannot overflow on the
inputs considered are modelled as `Nat`/`Int`.
-/

namespace Galactica

/-! ## Dreamland: shared string helpers -/

/-- `dep.find_first_of(">=<")` followed by `substr(0, pos)` in
`resolve_dependencies` (and in `parse_pkginfo_from_archive`): strip a
trailing version constraint from a dependency token. -/
def stripConstraint (s : String) : String :=
  String.mk (s.data.takeWhile (fun c => !(c = '>' || c = '=' || c = '<')))

/-! ## Dreamland: package model -/

/-- `PackageSource` from `main.cpp` (the `UNKNOWN` member is never stored in
the catalog maps used by the functions modelled here). -/
inductive PkgSrc
  | galactica
  | archBinary
deriving DecidableEq

/-- The fields of `struct Package` that the resolver and installer read.
`deps` is the package's dependency token list at resolution time (for an
Arch package this is the `.PKGINFO`-derived list after
`resolve_arch_package_deps`, for a Galactica package the descriptor list:
that network step only fills this field, so it is a parameter of the
embedding). -/
structure Pkg where
  deps : List String
  src : PkgSrc
deriving DecidableEq

/-- Insertion into a `std::set<std::string>` keeps it sorted; membership is
checked by the caller before inserting. -/
def insertSorted (x : String) : List String → List String
  | [] => [x]
  | y :: rest => if x < y then x :: y :: rest else y :: insertSorted x rest

/-! ## Dreamland: resolve_dependencies (main.cpp lines 1215-1306) -/

/-- The BFS of `resolve_dependencies` that builds `all_packages` and
`dep_graph` from the worklist `to_process`.  A node already collected or
already installed is skipped; an unknown node (absent from the catalog even
after `load_galactica_package`) is collected without a graph entry; a known
node contributes its constraint-stripped dependency tokens both to the graph
and to the worklist.  `fuel` bounds the loop (the C++ loop runs until the
queue drains). -/
def buildGraph (pkgs : List (String × Pkg)) (installed : List String) :
    Nat → List String → List String → List (String × List String) →
    Option (List String × List (String × List String))
  | _, [], allp, graph => some (allp, graph)
  | 0, _ :: _, _, _ => none
  | Nat.succ f, cur :: rest, allp, graph =>
    if cur ∈ allp then buildGraph pkgs installed f rest allp graph
    else if cur ∈ installed then buildGraph pkgs installed f rest allp graph
    else
      let allp1 := insertSorted cur allp
      match pkgs.lookup cur with
      | none => buildGraph pkgs installed f rest allp1 graph
      | some p =>
          let ds := p.deps.map stripConstraint
          buildGraph pkgs installed f (rest ++ ds) allp1 (graph ++ [(cur, ds)])

/-- `dep_graph.count(node) ? dep_graph[node] : (no deps)`. -/
def depsOf (g : List (String × List String)) (n : String) : List String :=
  match g.lookup n with
  | some ds => ds
  | none => []

/-- The mutable state of the DFS lambda `visit`: `visited`, `temp_mark` and
`result`. -/
structure DfsState where
  visited : List String
  temp : List String
  result : List String
deriving DecidableEq

/-- The recursive lambda `visit` of `resolve_dependencies`, embedded as a
worklist function: `visitNodes g fuel ns st` runs `visit` on each node of
`ns` in order (so `visit(n)` is `visitNodes g fuel [n] st`, and the
recursion over `dep_graph[node]` is the nested call on the dependency
list).  Returns `(false, _)` when a temp-marked node is re-entered (the
circular-dependency branch), `none` on fuel exhaustion. -/
def visitNodes (g : List (String × List String)) :
    Nat → List String → DfsState → Option (Bool × DfsState)
  | _, [], st => some (true, st)
  | 0, _ :: _, _ => none
  | Nat.succ f, node :: rest, st =>
    if node ∈ st.visited then visitNodes g f rest st
    else if node ∈ st.temp then some (false, st)
    else
      match visitNodes g f (depsOf g node) { st with temp := node :: st.temp } with
      | none => none
      | some (false, st1) => some (false, st1)
      | some (true, st1) =>
          visitNodes g f rest
            { visited := node :: st1.visited,
              temp := st1.temp.erase node,
              result := st1.result ++ [node] }

/-- `resolve_dependencies`: build the graph by BFS, then run the DFS over
`all_packages` (a `std::set`, iterated in sorted order, which `buildGraph`
maintains via `insertSorted`); a cycle aborts the whole resolution with an
empty order. -/
def resolve_dependencies (pkgs : List (String × Pkg)) (installed : List String)
    (root : String) (fuel : Nat) : Option (List String) :=
  match buildGraph pkgs installed fuel [root] [] [] with
  | none => none
  | some (allp, graph) =>
    match visitNodes graph fuel allp ⟨[], [], []⟩ with
    | none => none
    | some (false, _) => some []
    | some (true, st) => some st.result

/-! ## Dreamland: properties of the DFS topological sort -/

/-- `res` lists every recorded dependency strictly before its dependent:
whenever `n` occurs in `res`, all of `dep_graph[n]` occurs among the
elements preceding that occurrence. -/
def TopoBefore (g : List (String × List String)) (res : List String) : Prop :=
  ∀ pre n post, res = pre ++ n :: post → ∀ d ∈ depsOf g n, d ∈ pre

theorem topoBefore_nil (g : List (String × List String)) : TopoBefore g [] := by
  intro pre n post heq
  cases pre <;> simp at heq

theorem topoBefore_append {g : List (String × List String)} {res : List String} {n : String}
    (h : TopoBefore g res) (hd : ∀ d ∈ depsOf g n, d ∈ res) :
    TopoBefore g (res ++ [n]) := by
  intro pre m post heq d hdm
  rcases List.eq_nil_or_concat post with hpost | ⟨q, a, hq⟩
  · subst hpost
    obtain ⟨hpre, hmn⟩ := List.append_inj' heq (by rfl)
    have hm : n = m := (List.cons_eq_cons.mp hmn).1
    subst hm
    rw [← hpre]
    exact hd d hdm
  · subst hq
    rw [List.concat_eq_append] at heq
    have heq2 : res ++ [n] = (pre ++ m :: q) ++ [a] := by
      rw [List.append_assoc, List.cons_append]
      exact heq
    obtain ⟨hres, hna⟩ := List.append_inj' heq2 (by rfl)
    exact h pre m q hres d hdm

/-- Invariant of the DFS state: the result has no duplicates, the visited
set is exactly the set of emitted nodes, no visited node is temp-marked,
and the emitted order respects the graph. -/
def DfsInv (g : List (String × List String)) (st : DfsState) : Prop :=
  st.result.Nodup ∧ (∀ x, x ∈ st.visited ↔ x ∈ st.result) ∧
  (∀ x, x ∈ st.visited → x ∉ st.temp) ∧ TopoBefore g st.result

theorem visitNodes_inv (g : List (String × List String)) :
    ∀ (fuel : Nat) (ns : List String) (st : DfsState) (b : Bool) (st' : DfsState),
      visitNodes g fuel ns st = some (b, st') → DfsInv g st →
      DfsInv g st' ∧ (∃ t, st'.result = st.result ++ t) ∧
      (∀ x, x ∈ st.visited → x ∈ st'.visited) ∧
      (b = true → st'.temp = st.temp ∧ ∀ d, d ∈ ns → d ∈ st'.visited) := by
  intro fuel
  induction fuel with
  | zero =>
    intro ns st b st' h hinv
    cases ns with
    | nil =>
      simp only [visitNodes, Option.some.injEq, Prod.mk.injEq] at h
      obtain ⟨hb, hst⟩ := h
      subst hst
      cases hb
      exact ⟨hinv, ⟨[], by simp⟩, fun x hx => hx, fun _ => ⟨rfl, by simp⟩⟩
    | cons a l => simp [visitNodes] at h
  | succ f ih =>
    intro ns st b st' h hinv
    cases ns with
    | nil =>
      simp only [visitNodes, Option.some.injEq, Prod.mk.injEq] at h
      obtain ⟨hb, hst⟩ := h
      subst hst
      cases hb
      exact ⟨hinv, ⟨[], by simp⟩, fun x hx => hx, fun _ => ⟨rfl, by simp⟩⟩
    | cons node rest =>
      simp only [visitNodes] at h
      by_cases h1 : node ∈ st.visited
      · rw [if_pos h1] at h
        obtain ⟨hi, he, hm, hl⟩ := ih rest st b st' h hinv
        refine ⟨hi, he, hm, fun hb => ⟨(hl hb).1, fun d hd => ?_⟩⟩
        rcases List.mem_cons.mp hd with hdn | hdr
        · exact hm d (by rw [hdn]; exact h1)
        · exact (hl hb).2 d hdr
      · rw [if_neg h1] at h
        by_cases h2 : node ∈ st.temp
        · rw [if_pos h2] at h
          simp only [Option.some.injEq, Prod.mk.injEq] at h
          obtain ⟨hb, hst⟩ := h
          subst hst
          cases hb
          exact ⟨hinv, ⟨[], by simp⟩, fun x hx => hx, fun hb' => Bool.noConfusion hb'⟩
        · rw [if_neg h2] at h
          obtain ⟨hnd, hvr, hdisj, htopo⟩ := hinv
          have hinv1 : DfsInv g { st with temp := node :: st.temp } := by
            refine ⟨hnd, hvr, fun x hx => ?_, htopo⟩
            intro hmem
            rcases List.mem_cons.mp hmem with hxn | hxt
            · exact h1 (hxn ▸ hx)
            · exact hdisj x hx hxt
          rcases hrec : visitNodes g f (depsOf g node) { st with temp := node :: st.temp } with _ | ⟨b1, st1⟩
          · rw [hrec] at h; cases h
          · rw [hrec] at h
            obtain ⟨hi1, he1, hm1, hl1⟩ := ih _ _ _ _ hrec hinv1
            cases b1 with
            | false =>
              simp only [Option.some.injEq, Prod.mk.injEq] at h
              obtain ⟨hb, hst⟩ := h
              subst hst
              cases hb
              refine ⟨hi1, ?_, hm1, fun hb' => Bool.noConfusion hb'⟩
              simpa using he1
            | true =>
              obtain ⟨htemp1, hdeps1⟩ := hl1 rfl
              -- the completed node is appended and unmarked
              have hnode_temp : node ∈ st1.temp := by
                rw [htemp1]; exact List.mem_cons_self node st.temp
              have hnode_nvis : node ∉ st1.visited := fun hc => hi1.2.2.1 node hc hnode_temp
              have hnode_nres : node ∉ st1.result := fun hc => hnode_nvis ((hi1.2.1 node).mpr hc)
              have hst2inv : DfsInv g
                  { visited := node :: st1.visited, temp := st1.temp.erase node,
                    result := st1.result ++ [node] } := by
                refine ⟨?_, ?_, ?_, ?_⟩
                · simpa [List.nodup_append] using ⟨hi1.1, hnode_nres⟩
                · intro x
                  constructor
                  · intro hx
                    rcases List.mem_cons.mp hx with hxn | hxv
                    · exact List.mem_append.mpr (Or.inr (by simp [hxn]))
                    · exact List.mem_append.mpr (Or.inl ((hi1.2.1 x).mp hxv))
                  · intro hx
                    rcases List.mem_append.mp hx with hxr | hxn
                    · exact List.mem_cons_of_mem node ((hi1.2.1 x).mpr hxr)
                    · exact List.mem_cons.mpr (Or.inl (by simpa using hxn))
                · intro x hx hmem
                  have hmem' : x ∈ st1.temp := List.mem_of_mem_erase hmem
                  rcases List.mem_cons.mp hx with hxn | hxv
                  · subst hxn
                    rw [htemp1] at hmem
                    rw [List.erase_cons_head] at hmem
                    exact h2 hmem
                  · exact hi1.2.2.1 x hxv hmem'
                · refine topoBefore_append hi1.2.2.2 fun d hd => ?_
                  exact (hi1.2.1 d).mp (hdeps1 d hd)
              obtain ⟨hi2, he2, hm2, hl2⟩ := ih rest _ b st' h hst2inv
              refine ⟨hi2, ?_, ?_, ?_⟩
              · obtain ⟨t1, ht1⟩ := he1
                obtain ⟨t2, ht2⟩ := he2
                exact ⟨t1 ++ [node] ++ t2, by simp [ht2, ht1]⟩
              · intro x hx
                exact hm2 x (List.mem_cons_of_mem node (hm1 x hx))
              · intro hb
                obtain ⟨htemp2, hdeps2⟩ := hl2 hb
                constructor
                · rw [htemp2]
                  simp only
                  rw [htemp1, List.erase_cons_head]
                · intro d hd
                  rcases List.mem_cons.mp hd with hdn | hdr
                  · subst hdn
                    exact hm2 d (List.mem_cons_self d st1.visited)
                  · exact hdeps2 d hdr

/-- The catalog and registry of end-to-end scenario 4 of the spec: `vim`
depends on `ncurses`, and `ncurses` is already installed. -/
def vimCatalog : List (String × Pkg) :=
  [("vim", ⟨["ncurses"], PkgSrc.archBinary⟩), ("ncurses", ⟨[], PkgSrc.archBinary⟩)]

/-- Claim C1, counterexample: resolving `vim` when its dependency `ncurses`
is already in the installed registry returns the order
`["ncurses", "vim"]`, so an already-installed name does appear in the
result (the DFS emits graph leaves, and installed names are exactly the
nodes the BFS refused to expand). -/
theorem resolve_emits_installed_dependency :
    resolve_dependencies vimCatalog ["ncurses"] "vim" 10 = some ["ncurses", "vim"] ∧
    "ncurses" ∈ (["ncurses"] : List String) ∧
    "ncurses" ∈ (["ncurses", "vim"] : List String) :=
  ⟨by decide, by decide, by decide⟩

/-- Claim C1 [amended]: every order returned by `resolve_dependencies` is a
topological order of the resolver's internal dependency graph — every
dependency recorded in the graph appears in the list strictly before its
dependent, and every name appears at most once.  (Installed names are not
expanded by the BFS, but may still appear in the order as dependencies of
packages being installed; the root is omitted when it is itself
installed.) -/
theorem resolve_dependencies_topological (pkgs : List (String × Pkg))
    (installed : List String) (root : String) (fuel : Nat) (res : List String)
    (h : resolve_dependencies pkgs installed root fuel = some res) :
    res.Nodup ∧
    ∀ allp graph, buildGraph pkgs installed fuel [root] [] [] = some (allp, graph) →
      ∀ pre n post, res = pre ++ n :: post → ∀ d ∈ depsOf graph n, d ∈ pre := by
  rw [resolve_dependencies] at h
  split at h
  · exact Option.noConfusion h
  · next allp0 graph0 hbg =>
    have hinv0 : DfsInv graph0 ⟨[], [], []⟩ :=
      ⟨List.nodup_nil, fun x => by simp, fun x hx => by simp at hx, topoBefore_nil graph0⟩
    split at h
    · exact Option.noConfusion h
    · next st0 hvn =>
      injection h with h'
      subst h'
      refine ⟨List.nodup_nil, fun allp graph hg => ?_⟩
      intro pre n post heq
      cases pre <;> simp at heq
    · next st hvn =>
      injection h with h'
      subst h'
      obtain ⟨⟨hnd, _, _, htopo⟩, _, _, _⟩ :=
        visitNodes_inv graph0 fuel allp0 ⟨[], [], []⟩ true st hvn hinv0
      refine ⟨hnd, fun allp graph hg => ?_⟩
      rw [hbg] at hg
      simp only [Option.some.injEq, Prod.mk.injEq] at hg
      exact hg.2 ▸ htopo

/-- Claim C1, witness: the amended theorem applied to scenario 4's catalog. -/
theorem resolve_dependencies_topological_witness :
    (["ncurses", "vim"] : List String).Nodup ∧
    ∀ allp graph, buildGraph vimCatalog ["ncurses"] 10 ["vim"] [] [] = some (allp, graph) →
      ∀ pre n post, (["ncurses", "vim"] : List String) = pre ++ n :: post →
        ∀ d ∈ depsOf graph n, d ∈ pre :=
  resolve_dependencies_topological vimCatalog ["ncurses"] "vim" 10 ["ncurses", "vim"]
    (by decide)

/-! ## Dreamland: install_package (main.cpp lines 1505-1694) -/

/-- The user-visible events of one `install_package` invocation that the
claims talk about (each corresponds to a `print_*` call or an install
action in the source). -/
inductive InstallEvent
  | warnedAlreadyInstalled
  | databaseEmpty
  | packageNotFound
  | resolveFailed
  | allSatisfied
  | cancelled
  | installedFromArch (name : String)
  | installedFromGalactica (name : String)
deriving DecidableEq

/-- The install loop of `install_package`: walk the resolved order, skip
names already in the registry, install each remaining package from Arch
(when `force_arch` is set or the package is an Arch package) or from
source, and add it to the registry.  Downloads, extraction and builds are
modelled as succeeding; their failure paths abort the loop in the source
but are not exercised by the claims. -/
def installLoop (pkgs : List (String × Pkg)) (force_arch : Bool) :
    List String → List String → List InstallEvent →
    Bool × List String × List InstallEvent
  | [], installed, evs => (true, installed, evs)
  | name :: rest, installed, evs =>
    if name ∈ installed then installLoop pkgs force_arch rest installed evs
    else
      match pkgs.lookup name with
      | none => (false, installed, evs ++ [InstallEvent.packageNotFound])
      | some p =>
        if force_arch || p.src = PkgSrc.archBinary then
          installLoop pkgs force_arch rest (installed ++ [name])
            (evs ++ [InstallEvent.installedFromArch name])
        else
          installLoop pkgs force_arch rest (installed ++ [name])
            (evs ++ [InstallEvent.installedFromGalactica name])

/-- `install_package(pkg_name, force_arch)`.  The loaded catalog (Galactica
descriptors plus Arch database entries) is `pkgs`; `load_galactica_package`
succeeding corresponds to the name being present with source `galactica`.
`confirmYes` is the interactive confirmation (empty/`y`/`Y` input).  The
result is the returned `bool`, the installed registry afterwards, and the
emitted events; `none` is resolver fuel exhaustion. -/
def install_package (pkgs : List (String × Pkg)) (installed : List String)
    (pkg_name : String) (force_arch : Bool) (confirmYes : Bool) (fuel : Nat) :
    Option (Bool × List String × List InstallEvent) :=
  if pkgs = [] then some (false, installed, [InstallEvent.databaseEmpty])
  else
    let warnEvs : List InstallEvent :=
      if pkg_name ∈ installed then [InstallEvent.warnedAlreadyInstalled] else []
    let found : Bool :=
      match pkgs.lookup pkg_name with
      | none => false
      | some p => !force_arch || p.src = PkgSrc.archBinary
    if !found then some (false, installed, warnEvs ++ [InstallEvent.packageNotFound])
    else
      match resolve_dependencies pkgs installed pkg_name fuel with
      | none => none
      | some install_order =>
        if install_order = [] then
          some (false, installed, warnEvs ++ [InstallEvent.resolveFailed])
        else
          let to_install := install_order.filter (fun n => !installed.contains n)
          if to_install = [] then
            some (true, installed, warnEvs ++ [InstallEvent.allSatisfied])
          else if !confirmYes then
            some (false, installed, warnEvs ++ [InstallEvent.cancelled])
          else
            some (installLoop pkgs force_arch install_order installed warnEvs)

/-- Resolving a root that is already installed yields the empty order: the
BFS skips the installed root, so no node is ever collected. -/
theorem resolve_installed_root (pkgs : List (String × Pkg)) (installed : List String)
    (root : String) (fuel : Nat) (hf : 1 ≤ fuel) (hr : root ∈ installed) :
    resolve_dependencies pkgs installed root fuel = some [] := by
  obtain ⟨f, rfl⟩ : ∃ f, fuel = f + 1 := ⟨fuel - 1, by omega⟩
  rw [resolve_dependencies, buildGraph, if_neg (by simp), if_pos hr, buildGraph]
  simp [visitNodes]

/-- Claim C2, counterexample: two consecutive installs of `vim` (catalog of
scenario 4, `ncurses` preinstalled, confirmation given).  The first install
succeeds and registers `vim`; the second emits the
`already installed...installing anyways` warning, performs no install
event, but returns `false` (the resolver yields an empty order for an
installed root, which `install_package` reports as
`Failed to resolve dependencies`) — not the success the claim states. -/
theorem second_install_returns_failure :
    install_package vimCatalog ["ncurses"] "vim" false true 10 =
      some (true, ["ncurses", "vim"], [InstallEvent.installedFromArch "vim"]) ∧
    install_package vimCatalog ["ncurses", "vim"] "vim" false true 10 =
      some (false, ["ncurses", "vim"],
        [InstallEvent.warnedAlreadyInstalled, InstallEvent.resolveFailed]) :=
  ⟨by decide, by decide⟩

/-- Claim C2 [amended]: installing a name already present in the installed
registry performs no install work and emits the warning, but returns
failure, leaving the registry unchanged: the resolver returns the empty
order and `install_package` reports a resolve failure. -/
theorem install_installed_is_failed_noop (pkgs : List (String × Pkg))
    (installed : List String) (pkg_name : String) (p : Pkg) (confirmYes : Bool)
    (fuel : Nat) (hf : 1 ≤ fuel) (hin : pkg_name ∈ installed)
    (hp : pkgs.lookup pkg_name = some p) :
    install_package pkgs installed pkg_name false confirmYes fuel =
      some (false, installed,
        [InstallEvent.warnedAlreadyInstalled, InstallEvent.resolveFailed]) := by
  have hne : pkgs ≠ [] := by
    intro hc
    rw [hc] at hp
    exact Option.noConfusion hp
  rw [install_package, if_neg hne]
  simp only [hp, hin, if_pos]
  rw [resolve_installed_root pkgs installed pkg_name fuel hf hin]
  simp

/-- Claim C2, witness: the amended theorem applied to the concrete second
install of `vim`. -/
theorem install_installed_is_failed_noop_witness :
    install_package vimCatalog ["vim"] "vim" false true 10 =
      some (false, ["vim"],
        [InstallEvent.warnedAlreadyInstalled, InstallEvent.resolveFailed]) :=
  install_installed_is_failed_noop vimCatalog ["vim"] "vim"
    ⟨["ncurses"], PkgSrc.archBinary⟩ true 10 (by decide) (by decide) (by decide)

/-! ## Dreamland: sync_arch_databases (lines 576-606) and sync (lines 1316-1351)

The network and the tar extraction are oracles: `dl m r` is
`download_to_file` succeeding for repo `r` on mirror `m`, and `parse m r`
is `parse_arch_db` succeeding (count > 0) for that download. -/

/-- The inner repo loop of `sync_arch_databases` for one mirror.  Returns
(whether any repo of this mirror was downloaded and parsed, `mirror_ok`).
The first failing repo breaks the loop, so later repos are not attempted;
a repo that parses sets the outer `success` flag even if a later repo of
the same mirror fails. -/
def syncMirror (dl parseOk : String → String → Bool) (mirror : String) :
    List String → Bool × Bool
  | [] => (false, true)
  | repo :: rest =>
    if dl mirror repo then
      if parseOk mirror repo then
        let r := syncMirror dl parseOk mirror rest
        (true, r.2)
      else (false, false)
    else (false, false)

/-- The outer mirror loop of `sync_arch_databases`, carrying the `success`
accumulator; a mirror with `mirror_ok` still true after its repo loop
breaks the search. -/
def syncArchLoop (dl parseOk : String → String → Bool) (repos : List String)
    (success : Bool) : List String → Bool
  | [] => success
  | m :: ms =>
    let r := syncMirror dl parseOk m repos
    let success1 := success || r.1
    if r.2 then success1 else syncArchLoop dl parseOk repos success1 ms

/-- `sync_arch_databases()`: true iff the loop's `success` flag was ever
set. -/
def sync_arch_databases (dl parseOk : String → String → Bool)
    (repos mirrors : List String) : Bool :=
  syncArchLoop dl parseOk repos false mirrors

/-- The `(mirror, repo)` pairs actually attempted by
`sync_arch_databases`, in order: each mirror's repos up to and including
its first failure, over the mirrors up to and including the first good
one. -/
def mirrorAttempts (dl parseOk : String → String → Bool) (m : String) :
    List String → List (String × String)
  | [] => []
  | repo :: rest =>
    (m, repo) ::
      (if dl m repo && parseOk m repo then mirrorAttempts dl parseOk m rest else [])

def syncAttempts (dl parseOk : String → String → Bool) (repos : List String) :
    List String → List (String × String)
  | [] => []
  | m :: ms =>
    mirrorAttempts dl parseOk m repos ++
      (if (syncMirror dl parseOk m repos).2 then []
       else syncAttempts dl parseOk repos ms)

/-- The outcome of the `sync()` command. -/
inductive SyncResult
  | galacticaFailed
  | archFailed
  | completed
deriving DecidableEq

/-- `sync()`: galactica index first, then the Arch databases; only when
both succeed is `save_package_db()` reached, which rewrites the persisted
catalog from the in-memory package map (`catalogAfterParse`, which holds
whatever the attempted `parse_arch_db` calls accumulated — possibly only
some of the repos).  `prior` is the catalog file content before the
command. -/
def sync (galacticaOk : Bool) (dl parseOk : String → String → Bool)
    (repos mirrors : List String) (prior : List String)
    (catalogAfterParse : List String) : SyncResult × List String :=
  if !galacticaOk then (SyncResult.galacticaFailed, prior)
  else if sync_arch_databases dl parseOk repos mirrors then
    (SyncResult.completed, catalogAfterParse)
  else (SyncResult.archFailed, prior)

/-- The download/parse oracle of the C9 counterexample: every download
succeeds, but only `core` on the first mirror parses; `extra` never
does. -/
def oneRepoOracle : String → String → Bool :=
  fun m r => m = "mirror1" && r = "core"

def allOkOracle : String → String → Bool := fun _ _ => true

/-- Claim C9, counterexample: with mirrors `[mirror1, mirror2]` and repos
`[core, extra]`, no mirror yields all repositories (every `extra` parse
fails), yet `sync_arch_databases` returns true — the `success` flag was
set when `core` parsed on `mirror1` — so `sync` completes and overwrites
the persisted catalog with the partial parse instead of reporting failure
and leaving it intact. -/
theorem sync_succeeds_without_full_mirror :
    sync_arch_databases allOkOracle oneRepoOracle ["core", "extra"]
      ["mirror1", "mirror2"] = true ∧
    (∀ m ∈ (["mirror1", "mirror2"] : List String),
      (syncMirror allOkOracle oneRepoOracle m ["core", "extra"]).2 = false) ∧
    sync true allOkOracle oneRepoOracle ["core", "extra"] ["mirror1", "mirror2"]
      ["prior catalog line"] ["ARCH|corepkg"] =
      (SyncResult.completed, ["ARCH|corepkg"]) :=
  ⟨by decide, by decide, by decide⟩

theorem syncMirror_good_iff (dl parseOk : String → String → Bool) (m : String) :
    ∀ repos : List String,
      (syncMirror dl parseOk m repos).2 = true ↔
        ∀ r ∈ repos, dl m r = true ∧ parseOk m r = true := by
  intro repos
  induction repos with
  | nil => simp [syncMirror]
  | cons repo rest ih =>
    by_cases hdl : dl m repo
    · by_cases hp : parseOk m repo
      · simp [syncMirror, hdl, hp, ih]
      · simp [syncMirror, hdl, hp]
    · simp [syncMirror, hdl]

theorem syncMirror_any_head (dl parseOk : String → String → Bool) (m : String)
    (repo : String) (rest : List String) :
    (syncMirror dl parseOk m (repo :: rest)).1 = (dl m repo && parseOk m repo) := by
  by_cases hdl : dl m repo
  · by_cases hp : parseOk m repo
    · simp [syncMirror, hdl, hp]
    · simp [syncMirror, hdl, hp]
  · simp [syncMirror, hdl]

theorem mirrorAttempts_parsed_iff (dl parseOk : String → String → Bool)
    (m : String) :
    ∀ repos : List String,
      ((syncMirror dl parseOk m repos).1 = true ↔
        ∃ p ∈ mirrorAttempts dl parseOk m repos,
          dl p.1 p.2 = true ∧ parseOk p.1 p.2 = true) := by
  intro repos
  cases repos with
  | nil => simp [syncMirror, mirrorAttempts]
  | cons repo rest =>
    rw [syncMirror_any_head]
    by_cases hdl : dl m repo
    · by_cases hp : parseOk m repo
      · simp [mirrorAttempts, hdl, hp]
      · simp [mirrorAttempts, hdl, hp]
    · simp [mirrorAttempts, hdl]

theorem syncArchLoop_true_iff (dl parseOk : String → String → Bool)
    (repos : List String) :
    ∀ (mirrors : List String) (acc : Bool),
      (syncArchLoop dl parseOk repos acc mirrors = true ↔
        acc = true ∨ ∃ p ∈ syncAttempts dl parseOk repos mirrors,
          dl p.1 p.2 = true ∧ parseOk p.1 p.2 = true) := by
  intro mirrors
  induction mirrors with
  | nil => intro acc; simp [syncArchLoop, syncAttempts]
  | cons m ms ih =>
    intro acc
    rw [syncArchLoop]
    by_cases hok : (syncMirror dl parseOk m repos).2
    · rw [if_pos hok]
      simp only [syncAttempts, if_pos hok, List.append_nil, Bool.or_eq_true]
      rw [mirrorAttempts_parsed_iff dl parseOk m repos]
    · rw [if_neg hok]
      rw [ih]
      simp only [syncAttempts, if_neg hok, Bool.or_eq_true, List.mem_append]
      rw [mirrorAttempts_parsed_iff dl parseOk m repos]
      constructor
      · rintro ((h | h) | ⟨p, hp, hq⟩)
        · exact Or.inl h
        · rcases h with ⟨p, hp, hq⟩
          exact Or.inr ⟨p, Or.inl hp, hq⟩
        · exact Or.inr ⟨p, Or.inr hp, hq⟩
      · rintro (h | ⟨p, hp | hp, hq⟩)
        · exact Or.inl (Or.inl h)
        · exact Or.inl (Or.inr ⟨p, hp, hq⟩)
        · exact Or.inr ⟨p, hp, hq⟩

/-- Claim C9 [amended]: a mirror counts as good only if every configured
repository was both fetched and parsed from it (and a good mirror stops
the mirror search) — that part of the claim holds.  But
`sync_arch_databases` reports failure only when no repository at all was
fetched-and-parsed from any attempted mirror; if even a single repo parsed
on an otherwise failing mirror, sync reports success and `save_package_db`
rewrites the catalog with the partial result.  Only when sync reports
failure is the previously persisted catalog left intact. -/
theorem sync_mirror_policy (dl parseOk : String → String → Bool)
    (repos mirrors : List String) (galacticaOk : Bool) (prior : List String)
    (catalogAfterParse : List String) :
    (∀ m, (syncMirror dl parseOk m repos).2 = true ↔
        ∀ r ∈ repos, dl m r = true ∧ parseOk m r = true) ∧
    (sync_arch_databases dl parseOk repos mirrors = true ↔
        ∃ p ∈ syncAttempts dl parseOk repos mirrors,
          dl p.1 p.2 = true ∧ parseOk p.1 p.2 = true) ∧
    (sync_arch_databases dl parseOk repos mirrors = false →
        (sync galacticaOk dl parseOk repos mirrors prior catalogAfterParse).2 = prior) := by
  refine ⟨fun m => syncMirror_good_iff dl parseOk m repos, ?_, ?_⟩
  · rw [sync_arch_databases, syncArchLoop_true_iff]
    simp
  · intro hfail
    rw [sync]
    cases galacticaOk with
    | false => simp
    | true => simp [hfail]

/-- Claim C9, witness: the amended theorem at the counterexample's oracle;
sync reporting success here, the instance used is the good-mirror
characterization plus the success characterization. -/
theorem sync_mirror_policy_witness :
    ((syncMirror allOkOracle oneRepoOracle "mirror1" ["core", "extra"]).2 = true ↔
        ∀ r ∈ (["core", "extra"] : List String),
          allOkOracle "mirror1" r = true ∧ oneRepoOracle "mirror1" r = true) ∧
    (sync_arch_databases allOkOracle oneRepoOracle ["core", "extra"]
        ["mirror1", "mirror2"] = true ↔
      ∃ p ∈ syncAttempts allOkOracle oneRepoOracle ["core", "extra"]
          ["mirror1", "mirror2"],
        allOkOracle p.1 p.2 = true ∧ oneRepoOracle p.1 p.2 = true) :=
  ⟨(sync_mirror_policy allOkOracle oneRepoOracle ["core", "extra"]
      ["mirror1", "mirror2"] true [] []).1 "mirror1",
   (sync_mirror_policy allOkOracle oneRepoOracle ["core", "extra"]
      ["mirror1", "mirror2"] true [] []).2.1⟩

/-! ## Dreamland: extract_zst_package (lines 760-829) and
install_from_arch (lines 1131-1174) -/

/-- `substr`-level containment test (`std::string::find != npos`). -/
def strContainsAux (pat : List Char) : List Char → Bool
  | [] => pat.isEmpty
  | c :: rest => pat.isPrefixOf (c :: rest) || strContainsAux pat rest

def strContains (s pat : String) : Bool :=
  strContainsAux pat.data s.data

/-- Archive entry file types as reported by `archive_entry`. -/
inductive EntryType
  | regularFile
  | directory
  | other
deriving DecidableEq

/-- One archive entry: its pathname inside the archive, its type, and its
content (opaque to the installer, modelled as lines). -/
structure ArchiveEntry where
  pathname : String
  etype : EntryType
  content : List String
deriving DecidableEq

/-- The skip condition of `extract_zst_package`: the pathname starts with
`.` and mentions one of the four metadata names.  (An empty pathname is
read as not starting with `.`: `std::string::operator[]` at index 0 of an
empty string yields the null character.) -/
def is_metadata_entry (p : String) : Bool :=
  match p.data with
  | [] => false
  | c :: _ =>
    c = '.' &&
      (strContains p ".PKGINFO" || strContains p ".MTREE" ||
       strContains p ".BUILDINFO" || strContains p ".INSTALL")

/-- A file-system write performed by the installer: a path and the content
stored there. -/
inductive FsWrite
  | file (path : String) (content : List String)
deriving DecidableEq

/-- `extract_zst_package(pkg_file, dest)`: every non-metadata entry is
written to `dest + "/" + pathname` preserving its content; nothing else is
written.  (Read/write errors `break` in the source; the success path
modelled here writes all entries.) -/
def extract_zst_package (entries : List ArchiveEntry) (dest : String) :
    List FsWrite :=
  (entries.filter (fun e => !is_metadata_entry e.pathname)).map
    (fun e => FsWrite.file (dest ++ "/" ++ e.pathname) e.content)

/-- One line of `save_installed()`: `name version source-tag`. -/
def installedLine (e : String × String × PkgSrc) : String :=
  e.1 ++ " " ++ e.2.1 ++ " " ++
    (if e.2.2 = PkgSrc.galactica then "galactica" else "arch")

/-- `save_installed()` rewrites the registry file from the in-memory
`installed` map. -/
def save_installed_lines (installedAfter : List (String × String × PkgSrc)) :
    List String :=
  installedAfter.map installedLine

/-- The persistent writes of a successful `install_from_arch(pkg)`: extract
the cached archive to the filesystem root (`dest` is `""`), then
`save_installed()` to the registry file at `installed_db`.  No other file
is written — in particular the source keeps no manifest of the extracted
paths. -/
def install_from_arch_writes (installed_db : String)
    (entries : List ArchiveEntry)
    (installedAfter : List (String × String × PkgSrc)) : List FsWrite :=
  extract_zst_package entries "" ++
    [FsWrite.file installed_db (save_installed_lines installedAfter)]

/-- Modelled from the spec: the manifest that §4.5 step 2-3 requires — the
ordered absolute paths of the regular-file entries extracted from the
archive (metadata entries excluded), to be persisted as a line-per-path
file keyed by the package name.  No corresponding code exists in
`main.cpp`; this definition exists only to compare the spec's requirement
with the writes the code performs. -/
def spec_manifest (entries : List ArchiveEntry) : List String :=
  (entries.filter (fun e =>
      !is_metadata_entry e.pathname && e.etype = EntryType.regularFile)).map
    (fun e => "/" ++ e.pathname)

/-- No write of `install_from_arch` carries a given content when neither
any entry's content nor the registry content equals it. -/
theorem install_from_arch_no_write_of_content (installed_db : String)
    (entries : List ArchiveEntry)
    (installedAfter : List (String × String × PkgSrc)) (target : List String)
    (hent : ∀ e ∈ entries, e.content ≠ target)
    (hreg : save_installed_lines installedAfter ≠ target) :
    ∀ p, FsWrite.file p target ∉
      install_from_arch_writes installed_db entries installedAfter := by
  intro p hmem
  simp only [install_from_arch_writes, List.mem_append] at hmem
  rcases hmem with hmem | hmem
  · simp only [extract_zst_package, List.mem_map] at hmem
    obtain ⟨e, hef, heq⟩ := hmem
    obtain ⟨he, _⟩ := List.mem_filter.mp hef
    have := congrArg (fun w => match w with | FsWrite.file _ d => d) heq
    exact hent e he (by simpa using this)
  · simp only [List.mem_singleton] at hmem
    have := congrArg (fun w => match w with | FsWrite.file _ d => d) hmem
    exact hreg (by simpa using this.symm)

/-- The archive of end-to-end scenario 4: `vim`'s package with its
`.PKGINFO` metadata and one real file. -/
def vimArchive : List ArchiveEntry :=
  [⟨".PKGINFO", EntryType.regularFile, ["pkgname = vim"]⟩,
   ⟨"usr/", EntryType.directory, []⟩,
   ⟨"usr/bin/vim", EntryType.regularFile, ["ELF"]⟩]

/-- Claim C3, counterexample: installing `vim`'s archive writes exactly the
extracted entries and the installed registry; no write carries the
manifest content `["/usr/bin/vim"]`, under any path — the manifest of the
claim is never persisted. -/
theorem binary_install_writes_no_manifest :
    install_from_arch_writes "installed.db" vimArchive [("vim", "9.0", PkgSrc.archBinary)] =
      [FsWrite.file "/usr/" [], FsWrite.file "/usr/bin/vim" ["ELF"],
       FsWrite.file "installed.db" ["vim 9.0 arch"]] ∧
    spec_manifest vimArchive = ["/usr/bin/vim"] ∧
    ∀ p : String, FsWrite.file p (spec_manifest vimArchive) ∉
      install_from_arch_writes "installed.db" vimArchive
        [("vim", "9.0", PkgSrc.archBinary)] := by
  refine ⟨by decide, by decide, ?_⟩
  exact install_from_arch_no_write_of_content "installed.db" vimArchive
    [("vim", "9.0", PkgSrc.archBinary)] (spec_manifest vimArchive)
    (by decide) (by decide)

/-- Claim C3 [amended]: after a successful binary install no manifest is
persisted.  The writes of `install_from_arch` are exactly the non-metadata
archive entries (at `"/" ++ pathname` with the entry's own content) plus
the installed-registry file; consequently, whenever no entry's content and
not the registry content equals the path list the spec calls the manifest,
no written file holds that manifest. -/
theorem binary_install_writes_characterized (installed_db : String)
    (entries : List ArchiveEntry)
    (installedAfter : List (String × String × PkgSrc)) :
    (∀ e ∈ entries, is_metadata_entry e.pathname = false →
      FsWrite.file ("/" ++ e.pathname) e.content ∈
        install_from_arch_writes installed_db entries installedAfter) ∧
    (∀ p c, FsWrite.file p c ∈
        install_from_arch_writes installed_db entries installedAfter →
      (p = installed_db ∧ c = save_installed_lines installedAfter) ∨
      ∃ e ∈ entries, is_metadata_entry e.pathname = false ∧
        p = "/" ++ e.pathname ∧ c = e.content) ∧
    ((∀ e ∈ entries, e.content ≠ spec_manifest entries) →
      save_installed_lines installedAfter ≠ spec_manifest entries →
      ∀ p, FsWrite.file p (spec_manifest entries) ∉
        install_from_arch_writes installed_db entries installedAfter) := by
  refine ⟨?_, ?_, ?_⟩
  · intro e he hm
    simp only [install_from_arch_writes, List.mem_append]
    refine Or.inl ?_
    simp only [extract_zst_package, List.mem_map]
    exact ⟨e, List.mem_filter.mpr ⟨he, by simp [hm]⟩, by simp⟩
  · intro p c hmem
    simp only [install_from_arch_writes, List.mem_append] at hmem
    rcases hmem with hmem | hmem
    · simp only [extract_zst_package, List.mem_map] at hmem
      obtain ⟨e, hef, heq⟩ := hmem
      obtain ⟨he, hmeta⟩ := List.mem_filter.mp hef
      refine Or.inr ⟨e, he, by simpa using hmeta, ?_, ?_⟩
      · have := congrArg (fun w => match w with | FsWrite.file q _ => q) heq
        simpa using this.symm
      · have := congrArg (fun w => match w with | FsWrite.file _ d => d) heq
        simpa using this.symm
    · simp only [List.mem_singleton] at hmem
      refine Or.inl ⟨?_, ?_⟩
      · have := congrArg (fun w => match w with | FsWrite.file q _ => q) hmem
        simpa using this
      · have := congrArg (fun w => match w with | FsWrite.file _ d => d) hmem
        simpa using this
  · intro hent hreg
    exact install_from_arch_no_write_of_content installed_db entries
      installedAfter (spec_manifest entries) hent hreg

/-- Claim C3, witness: the characterization applied to scenario 4's
archive, registering `vim`. -/
theorem binary_install_writes_characterized_witness :
    FsWrite.file "/usr/bin/vim" ["ELF"] ∈
      install_from_arch_writes "installed.db" vimArchive
        [("vim", "9.0", PkgSrc.archBinary)] :=
  (binary_install_writes_characterized "installed.db" vimArchive
      [("vim", "9.0", PkgSrc.archBinary)]).1
    ⟨"usr/bin/vim", EntryType.regularFile, ["ELF"]⟩ (by decide) (by decide)

/-! ## AirRide Init: service registry and start_service_internal
(main.cpp lines 240-362) -/

/-- `ServiceState` from AirRide's `main.cpp`. -/
inductive SvcState
  | stopped
  | starting
  | running
  | stopping
  | failed
deriving DecidableEq

/-- `ServiceType`. -/
inductive SvcType
  | simple
  | forking
  | oneshot
deriving DecidableEq

/-- The fields of `struct Service` that `start_service_internal` reads and
writes (`after` waits only sleep, and stdio attachment happens in the
child, so neither affects the registry). -/
structure SvcRec where
  requires : List String
  after : List String
  type : SvcType
  restart_on_failure : Bool
  restart_delay : Nat
  failures : Nat
  state : SvcState
  pid : Nat
deriving DecidableEq

/-- The supervisor state visible to the claims: the service registry (the
`services` map as an association list), the names forked so far (in fork
order), and the pid the next fork returns.  `fork` is modelled as
succeeding — the fork-failure branch at the end of
`start_service_internal` is not exercised by the claims. -/
structure InitState where
  svcs : List (String × SvcRec)
  forked : List String
  nextPid : Nat
deriving DecidableEq

/-- Update every registry entry named `name` (the `std::map` holds one). -/
def setSvc (st : InitState) (name : String) (f : SvcRec → SvcRec) : InitState :=
  { st with svcs := st.svcs.map (fun p => if p.1 = name then (p.1, f p.2) else p) }

def setState (st : InitState) (name : String) (s : SvcState) : InitState :=
  setSvc st name (fun r => { r with state := s })

def setPidState (st : InitState) (name : String) (pid : Nat) (s : SvcState) :
    InitState :=
  setSvc st name (fun r => { r with pid := pid, state := s })

/-- `start_service_internal`, embedded as a worklist over the names to be
started in order (so `start_service(n)` is `start_services ex fuel [n] st`,
and the `for (dep : svc->requires)` loop is the nested call on
`svc.requires` — its first failure marks the dependent `failed` and
returns false, exactly as the source's early return).  A service already
`running` or `starting` returns true immediately; otherwise it is marked
`starting`, its requires are started, a child is forked (recorded in
`forked`, stdio attachment happens inside the child), and the parent
records pid and `running`; a oneshot additionally waits for the child —
`exitZero` tells whether it exited 0 — and collapses to `stopped` or
`failed`.  `none` is fuel exhaustion. -/
def start_services (exitZero : String → Bool) :
    Nat → List String → InitState → Option (Bool × InitState)
  | _, [], st => some (true, st)
  | 0, _ :: _, _ => none
  | Nat.succ f, name :: rest, st =>
    match st.svcs.lookup name with
    | none => some (false, st)
    | some svc =>
      if svc.state = SvcState.running then start_services exitZero f rest st
      else if svc.state = SvcState.starting then start_services exitZero f rest st
      else
        let st1 := setState st name SvcState.starting
        match start_services exitZero f svc.requires st1 with
        | none => none
        | some (false, st2) => some (false, setState st2 name SvcState.failed)
        | some (true, st2) =>
          let pid := st2.nextPid
          let st3 : InitState :=
            { st2 with forked := st2.forked ++ [name], nextPid := st2.nextPid + 1 }
          let st4 := setPidState st3 name pid SvcState.running
          if svc.type = SvcType.oneshot then
            if exitZero name then
              start_services exitZero f rest (setPidState st4 name 0 SvcState.stopped)
            else some (false, setPidState st4 name 0 SvcState.failed)
          else start_services exitZero f rest st4

theorem lookup_map_update_self {β : Type} (l : List (String × β)) (n : String)
    (f : β → β) :
    (l.map (fun p => if p.1 = n then (p.1, f p.2) else p)).lookup n =
      (l.lookup n).map f := by
  induction l with
  | nil => simp
  | cons hd tl ih =>
    obtain ⟨k, v⟩ := hd
    by_cases h : k = n
    · subst h
      simp [List.lookup_cons]
    · have hb : (n == k) = false := by simp [Ne.symm h]
      simp [List.lookup_cons, h, hb, ih]

theorem lookup_map_update_ne {β : Type} (l : List (String × β)) (n m : String)
    (f : β → β) (h : m ≠ n) :
    (l.map (fun p => if p.1 = n then (p.1, f p.2) else p)).lookup m = l.lookup m := by
  induction l with
  | nil => simp
  | cons hd tl ih =>
    obtain ⟨k, v⟩ := hd
    by_cases hk : k = n
    · subst hk
      have hb : (m == k) = false := by simp [h]
      simp [List.lookup_cons, hb, ih]
    · by_cases hmk : m = k
      · subst hmk
        simp [List.lookup_cons, hk, ih]
      · have hb : (m == k) = false := by simp [hmk]
        simp [List.lookup_cons, hk, hb, ih]

theorem lookup_setSvc_self (st : InitState) (n : String) (f : SvcRec → SvcRec) :
    (setSvc st n f).svcs.lookup n = (st.svcs.lookup n).map f :=
  lookup_map_update_self st.svcs n f

theorem lookup_setSvc_ne (st : InitState) (n m : String) (f : SvcRec → SvcRec)
    (h : m ≠ n) :
    (setSvc st n f).svcs.lookup m = st.svcs.lookup m :=
  lookup_map_update_ne st.svcs n m f h

/-- A simple stopped service requiring `other`. -/
def cyclicSvc (other : String) : SvcRec :=
  ⟨[other], [], SvcType.simple, false, 5, 0, SvcState.stopped, 0⟩

/-- The registry of end-to-end scenario 3: `x requires y`, `y requires x`. -/
def cycleState : InitState :=
  ⟨[("x", cyclicSvc "y"), ("y", cyclicSvc "x")], [], 100⟩

/-- Claim C4, counterexample: starting `x` in the two-cycle registry does
terminate, but detects nothing: it returns success (`OK`), forks a child
for `y` and then for `x`, and leaves both services `running` — not the
`FAILED`/no-fork/stopped-or-failed outcome the claim states.  (The
recursion stops because a service already in `starting` is treated as
started: line 252 returns true.) -/
theorem start_cycle_forks_and_succeeds :
    (start_services (fun _ => true) 10 ["x"] cycleState).map Prod.fst = some true ∧
    (start_services (fun _ => true) 10 ["x"] cycleState).map
      (fun r => r.2.forked) = some ["y", "x"] ∧
    ((start_services (fun _ => true) 10 ["x"] cycleState).bind
      (fun r => r.2.svcs.lookup "x")).map SvcRec.state = some SvcState.running ∧
    ((start_services (fun _ => true) 10 ["x"] cycleState).bind
      (fun r => r.2.svcs.lookup "y")).map SvcRec.state = some SvcState.running :=
  ⟨by decide, by decide, by decide, by decide⟩

set_option maxHeartbeats 1000000 in
/-- Claim C4 [amended]: for any two simple stopped services `x requires y`
and `y requires x`, `start x` terminates without infinite recursion — the
recursion bottoms out because a service already in `starting` is treated
as successfully started — but no cycle is detected or reported: the call
returns success, forks one child per service (`y` first, then `x`), and
leaves both services `running`. -/
theorem start_cycle_terminates_running (ex : String → Bool) (st : InitState)
    (x y : String) (sx sy : SvcRec) (fuel : Nat) (hxy : x ≠ y) (hf : 3 ≤ fuel)
    (hlx : st.svcs.lookup x = some sx) (hly : st.svcs.lookup y = some sy)
    (hrx : sx.requires = [y]) (hry : sy.requires = [x])
    (hsx : sx.state = SvcState.stopped) (hsy : sy.state = SvcState.stopped)
    (htx : sx.type = SvcType.simple) (hty : sy.type = SvcType.simple) :
    ∃ st', start_services ex fuel [x] st = some (true, st') ∧
      st'.forked = st.forked ++ [y, x] ∧
      (st'.svcs.lookup x).map SvcRec.state = some SvcState.running ∧
      (st'.svcs.lookup y).map SvcRec.state = some SvcState.running := by
  obtain ⟨f, rfl⟩ : ∃ f, fuel = Nat.succ (Nat.succ (Nat.succ f)) :=
    ⟨fuel - 3, by omega⟩
  have hyx : y ≠ x := fun hc => hxy hc.symm
  set st1 := setState st x SvcState.starting with hst1
  have hlx1 : st1.svcs.lookup x = some { sx with state := SvcState.starting } := by
    rw [hst1, setState, lookup_setSvc_self, hlx]
    rfl
  have hly1 : st1.svcs.lookup y = some sy := by
    rw [hst1, setState, lookup_setSvc_ne st x y _ hyx, hly]
  set st2 := setState st1 y SvcState.starting with hst2
  have hlx2 : st2.svcs.lookup x = some { sx with state := SvcState.starting } := by
    rw [hst2, setState, lookup_setSvc_ne st1 y x _ hxy, hlx1]
  have hly2 : st2.svcs.lookup y = some { sy with state := SvcState.starting } := by
    rw [hst2, setState, lookup_setSvc_self, hly1]
    rfl
  have hst2fork : st2.forked = st.forked := by rw [hst2, hst1]; rfl
  set st3 : InitState :=
    { st2 with forked := st2.forked ++ [y], nextPid := st2.nextPid + 1 } with hst3
  set st4 := setPidState st3 y st2.nextPid SvcState.running with hst4
  set st5 : InitState :=
    { st4 with forked := st4.forked ++ [x], nextPid := st4.nextPid + 1 } with hst5
  set st6 := setPidState st5 x st4.nextPid SvcState.running with hst6
  have hxrun : start_services ex (Nat.succ (Nat.succ (Nat.succ f))) [x] st =
      some (true, st6) := by
    simp +decide only [start_services, hlx, hsx, hrx, hly1, hsy, hry, hlx2, hty, htx,
      ite_true, ite_false, ← hst1, ← hst2]
  refine ⟨st6, hxrun, ?_, ?_, ?_⟩
  · have h4 : st4.forked = st2.forked ++ [y] := by rw [hst4]; rfl
    have h6 : st6.forked = st4.forked ++ [x] := by rw [hst6, hst5]; rfl
    rw [h6, h4, hst2fork, List.append_assoc]
    rfl
  · rw [hst6, setPidState, lookup_setSvc_self]
    have h5 : st5.svcs = st4.svcs := by rw [hst5]
    have hx5 : st5.svcs.lookup x = some { sx with state := SvcState.starting } := by
      rw [h5, hst4, setPidState, lookup_setSvc_ne st3 y x _ hxy]
      have h3 : st3.svcs = st2.svcs := by rw [hst3]
      rw [h3, hlx2]
    rw [hx5]
    rfl
  · rw [hst6, setPidState, lookup_setSvc_ne st5 x y _ hyx]
    have h5 : st5.svcs = st4.svcs := by rw [hst5]
    rw [h5, hst4, setPidState, lookup_setSvc_self]
    have h3 : st3.svcs = st2.svcs := by rw [hst3]
    rw [h3, hly2]
    rfl

/-- Claim C4, witness: the amended theorem at scenario 3's registry. -/
theorem start_cycle_terminates_running_witness :
    ∃ st', start_services (fun _ => true) 10 ["x"] cycleState = some (true, st') ∧
      st'.forked = cycleState.forked ++ ["y", "x"] ∧
      (st'.svcs.lookup "x").map SvcRec.state = some SvcState.running ∧
      (st'.svcs.lookup "y").map SvcRec.state = some SvcState.running :=
  start_cycle_terminates_running (fun _ => true) cycleState "x" "y"
    (cyclicSvc "y") (cyclicSvc "x") 10 (by decide) (by decide) (by decide)
    (by decide) (by decide) (by decide) (by decide) (by decide) (by decide)
    (by decide)

/-! ## AirRide Init: reap_zombies (main.cpp lines 494-521) -/

/-- The per-service action of `reap_zombies` when a reaped pid belongs to
the service: record stopped/failed from the exit status, clear the pid,
and — iff `restart_on_failure` is set and `failures < 10` — increment
`failures` and schedule a restart worker.  The returned `Bool` is whether
a restart was scheduled. -/
def reap_zombies_step (svc : SvcRec) (exitedZero : Bool) : SvcRec × Bool :=
  let svc1 : SvcRec :=
    { svc with
      state := if exitedZero then SvcState.stopped else SvcState.failed,
      pid := 0 }
  if svc1.restart_on_failure ∧ svc1.failures < 10 then
    ({ svc1 with failures := svc1.failures + 1 }, true)
  else (svc1, false)

/-- A sequence of exits of the same service, reaped one by one; returns the
final record and how many restarts were scheduled in total. -/
def reap_run (svc : SvcRec) : List Bool → SvcRec × Nat
  | [] => (svc, 0)
  | e :: es =>
    let r := reap_zombies_step svc e
    let rest := reap_run r.1 es
    (rest.1, (if r.2 then 1 else 0) + rest.2)

theorem reap_zombies_step_rof (svc : SvcRec) (e : Bool) :
    (reap_zombies_step svc e).1.restart_on_failure = svc.restart_on_failure := by
  simp only [reap_zombies_step]
  split <;> rfl

theorem reap_zombies_step_failures (svc : SvcRec) (e : Bool) :
    (reap_zombies_step svc e).1.failures =
      if svc.restart_on_failure ∧ svc.failures < 10 then svc.failures + 1
      else svc.failures := by
  simp only [reap_zombies_step]
  split <;> split <;> simp_all

theorem reap_zombies_step_scheduled (svc : SvcRec) (e : Bool) :
    (reap_zombies_step svc e).2 = true ↔
      svc.restart_on_failure = true ∧ svc.failures < 10 := by
  simp only [reap_zombies_step]
  split <;> simp_all

theorem reap_run_counts (svc : SvcRec) (hr : svc.restart_on_failure = true)
    (h10 : svc.failures ≤ 10) :
    ∀ exits : List Bool,
      (reap_run svc exits).1.failures = min (svc.failures + exits.length) 10 ∧
      (reap_run svc exits).2 = min (svc.failures + exits.length) 10 - svc.failures ∧
      (reap_run svc exits).1.restart_on_failure = true := by
  intro exits
  induction exits generalizing svc with
  | nil => simp [reap_run, Nat.min_eq_left h10, hr]
  | cons e es ih =>
    have hstep := reap_zombies_step_failures svc e
    have hrof := reap_zombies_step_rof svc e
    rw [hr] at hrof
    by_cases hlt : svc.failures < 10
    · rw [if_pos ⟨hr, hlt⟩] at hstep
      have hle : (reap_zombies_step svc e).1.failures ≤ 10 := by omega
      obtain ⟨ih1, ih2, ih3⟩ := ih (reap_zombies_step svc e).1 hrof hle
      rw [hstep] at ih1 ih2
      refine ⟨?_, ?_, ?_⟩
      · rw [reap_run]
        simp only
        rw [ih1]
        simp [List.length_cons]
        omega
      · rw [reap_run]
        simp only
        rw [ih2]
        have hsched : (reap_zombies_step svc e).2 = true :=
          (reap_zombies_step_scheduled svc e).mpr ⟨hr, hlt⟩
        rw [hsched]
        simp [List.length_cons]
        omega
      · rw [reap_run]
        simp only
        exact ih3
    · have hf10 : svc.failures = 10 := by omega
      rw [if_neg (by rw [hf10]; simp)] at hstep
      obtain ⟨ih1, ih2, ih3⟩ := ih (reap_zombies_step svc e).1 hrof (by omega)
      rw [hstep] at ih1 ih2
      have hnosched : (reap_zombies_step svc e).2 = false := by
        rw [reap_zombies_step]
        rw [if_neg (by rw [hf10]; simp)]
      refine ⟨?_, ?_, ?_⟩
      · rw [reap_run]
        simp only
        rw [ih1, hf10]
        omega
      · rw [reap_run]
        simp only
        rw [ih2, hnosched, hf10]
        simp only [List.length_cons, if_false, Bool.false_eq_true, ite_false]
        omega
      · rw [reap_run]
        simp only
        exact ih3

/-- Claim C8 [confirmed]: (a) a reap schedules a restart iff
`restart_on_failure` is set and the failures counter is below 10, and a
scheduled restart increments the counter; (b) starting from a fresh
service (`failures = 0`), any sequence of exits schedules exactly
`min |exits| 10` restarts — never more than 10; (c) after ten exits the
counter is 10, so the reap of the eleventh exit schedules no restart. -/
theorem reap_restart_capped_at_ten (svc : SvcRec)
    (hr : svc.restart_on_failure = true) (h0 : svc.failures = 0) :
    (∀ s : SvcRec, ∀ e : Bool,
      ((reap_zombies_step s e).2 = true ↔
        s.restart_on_failure = true ∧ s.failures < 10) ∧
      ((reap_zombies_step s e).2 = true →
        (reap_zombies_step s e).1.failures = s.failures + 1)) ∧
    (∀ exits : List Bool,
      (reap_run svc exits).2 = min exits.length 10 ∧
      (reap_run svc exits).2 ≤ 10) ∧
    (∀ exits : List Bool, ∀ e : Bool, exits.length = 10 →
      (reap_run svc exits).1.failures = 10 ∧
      (reap_zombies_step (reap_run svc exits).1 e).2 = false) := by
  refine ⟨fun s e => ⟨reap_zombies_step_scheduled s e, fun hs => ?_⟩, ?_, ?_⟩
  · rw [reap_zombies_step_failures s e,
      if_pos ((reap_zombies_step_scheduled s e).mp hs)]
  · intro exits
    obtain ⟨_, h2, _⟩ := reap_run_counts svc hr (by omega) exits
    rw [h2, h0]
    constructor
    · simp
    · omega
  · intro exits e hlen
    obtain ⟨h1, _, _⟩ := reap_run_counts svc hr (by omega) exits
    rw [hlen, h0] at h1
    simp at h1
    refine ⟨h1, ?_⟩
    rw [reap_zombies_step]
    rw [if_neg (by rw [h1]; simp)]

/-- Claim C8, witness: a fresh restartable service reaped eleven times
schedules exactly ten restarts, and the eleventh reap schedules none. -/
theorem reap_restart_capped_at_ten_witness :
    ((reap_run ⟨[], [], SvcType.simple, true, 5, 0, SvcState.running, 42⟩
        [false, false, false, false, false, false, false, false, false, false]).2 =
      min 10 10) ∧
    (reap_zombies_step
      (reap_run ⟨[], [], SvcType.simple, true, 5, 0, SvcState.running, 42⟩
        [false, false, false, false, false, false, false, false, false, false]).1
      false).2 = false := by
  have h := reap_restart_capped_at_ten
    ⟨[], [], SvcType.simple, true, 5, 0, SvcState.running, 42⟩ rfl rfl
  refine ⟨?_, ?_⟩
  · have := (h.2.1 [false, false, false, false, false, false, false, false, false,
      false]).1
    simpa using this
  · exact (h.2.2 [false, false, false, false, false, false, false, false, false,
      false] false (by decide)).2

/-! ## AirRide Init: parse_service_file (lines 124-191) and load_services
(lines 193-220) -/

/-- Characters erased by `find_first_not_of(" \t")`-style leading trims. -/
def isSpaceTab (c : Char) : Bool := c = ' ' || c = '\t'

/-- Characters erased by the trailing `" \t\r\n"` trim. -/
def isTrimWs (c : Char) : Bool := c = ' ' || c = '\t' || c = '\r' || c = '\n'

def ltrimST (s : String) : String := String.mk (s.data.dropWhile isSpaceTab)

def rtrimWs (s : String) : String :=
  String.mk ((s.data.reverse.dropWhile isTrimWs).reverse)

def rtrimST (s : String) : String :=
  String.mk ((s.data.reverse.dropWhile isSpaceTab).reverse)

/-- Outer double-quote stripping of a value. -/
def stripQuotes (v : String) : String :=
  if v.data.length ≥ 2 && v.data.head? = some '"' && v.data.getLast? = some '"'
  then String.mk ((v.data.drop 1).dropLast)
  else v

/-- The `is_true` lambda: `true`, `yes` and `1` are true. -/
def is_true (v : String) : Bool := v = "true" || v = "yes" || v = "1"

/-- Whitespace tokenization (`std::istringstream >>`). -/
def wsTokensAux : List Char → List Char → List String
  | [], cur => if cur.isEmpty then [] else [String.mk cur.reverse]
  | c :: rest, cur =>
    if isTrimWs c then
      if cur.isEmpty then wsTokensAux rest []
      else String.mk cur.reverse :: wsTokensAux rest []
    else wsTokensAux rest (c :: cur)

def wsTokens (s : String) : List String := wsTokensAux s.data []

def stoiDigits (neg : Bool) (cs : List Char) : Option Int :=
  let ds := cs.takeWhile Char.isDigit
  if ds.isEmpty then none
  else
    let n : Nat := ds.foldl (fun a c => a * 10 + (c.toNat - 48)) 0
    some (if neg then -(n : Int) else (n : Int))

/-- `std::stoi`: optional leading whitespace, optional sign, at least one
digit; `none` models the `std::invalid_argument` it throws otherwise
(AirRide has no handler, so the exception terminates init). -/
def stoiOpt (s : String) : Option Int :=
  match s.data.dropWhile isTrimWs with
  | '-' :: rest => stoiDigits true rest
  | '+' :: rest => stoiDigits false rest
  | cs => stoiDigits false cs

/-- Split a line at its first `=` (`line.find('=')`). -/
def splitAtEq : List Char → Option (List Char × List Char)
  | [] => none
  | c :: rest =>
    if c = '=' then some ([], rest)
    else (splitAtEq rest).map (fun p => (c :: p.1, p.2))

/-- The full `struct Service` as filled in by `parse_service_file`, with
the C++ member initializers as defaults.  (`SvcRec` above is the
projection of the same record that `start_service_internal` and
`reap_zombies` manipulate.) -/
structure ServiceDef where
  name : String := ""
  description : String := ""
  type : SvcType := SvcType.simple
  exec_start : String := ""
  exec_stop : String := ""
  tty_device : String := ""
  requires : List String := []
  after : List String := []
  restart_on_failure : Bool := false
  autostart : Bool := false
  parallel : Bool := false
  clear_screen : Bool := false
  foreground : Bool := false
  restart_delay : Int := 5
deriving DecidableEq

/-- Apply one `key = value` binding in the `[Service]` section. -/
def applyServiceKey (svc : ServiceDef) (key value : String) :
    Option ServiceDef :=
  if key = "name" then some { svc with name := value }
  else if key = "description" then some { svc with description := value }
  else if key = "exec_start" then some { svc with exec_start := value }
  else if key = "exec_stop" then some { svc with exec_stop := value }
  else if key = "tty" then some { svc with tty_device := value }
  else if key = "autostart" then some { svc with autostart := is_true value }
  else if key = "parallel" then some { svc with parallel := is_true value }
  else if key = "clear_screen" then some { svc with clear_screen := is_true value }
  else if key = "foreground" then some { svc with foreground := is_true value }
  else if key = "type" then
    some { svc with type :=
      if value = "simple" then SvcType.simple
      else if value = "forking" then SvcType.forking
      else if value = "oneshot" then SvcType.oneshot
      else svc.type }
  else if key = "restart" then
    some { svc with restart_on_failure := value = "on-failure" || value = "always" }
  else if key = "restart_delay" then
    match stoiOpt value with
    | none => none
    | some n => some { svc with restart_delay := n }
  else some svc

/-- Process one line of a `.service` file under the current section;
returns the updated record and section, or `none` for the `std::stoi`
exception. -/
def parse_service_line (svc : ServiceDef) (sect : String) (rawLine : String) :
    Option (ServiceDef × String) :=
  let line := rtrimWs (ltrimST rawLine)
  match line.data with
  | [] => some (svc, sect)
  | c :: _ =>
    if c = '#' then some (svc, sect)
    else if c = '[' && line.data.getLast? = some ']' then
      some (svc, String.mk ((line.data.drop 1).dropLast))
    else
      match splitAtEq line.data with
      | none => some (svc, sect)
      | some (before, rest) =>
        let key := rtrimST (String.mk before)
        let value := stripQuotes (ltrimST (String.mk rest))
        if sect = "Service" then
          (applyServiceKey svc key value).map (fun s => (s, sect))
        else if sect = "Dependencies" then
          if key = "requires" then
            some ({ svc with requires := svc.requires ++ wsTokens value }, sect)
          else if key = "after" then
            some ({ svc with after := svc.after ++ wsTokens value }, sect)
          else some (svc, sect)
        else some (svc, sect)

def parse_service_lines : List String → ServiceDef → String → Option ServiceDef
  | [], svc, _ => some svc
  | l :: rest, svc, sect =>
    match parse_service_line svc sect l with
    | none => none
    | some (svc1, sect1) => parse_service_lines rest svc1 sect1

/-- `parse_service_file`, on the file's lines.  Returns the parsed record
(the caller inserts it only when `name` is nonempty); `none` models the
uncaught `std::stoi` exception. -/
def parse_service_file (lines : List String) : Option ServiceDef :=
  parse_service_lines lines {} ""

/-- `services[name] = svc` on the registry map: replace an existing key or
insert a new one. -/
def regInsert (reg : List (String × ServiceDef)) (k : String) (v : ServiceDef) :
    List (String × ServiceDef) :=
  if (reg.lookup k).isSome then
    reg.map (fun p => if p.1 = k then (p.1, v) else p)
  else reg ++ [(k, v)]

/-- The built-in emergency shell registered first by `load_services`. -/
def builtinShell : ServiceDef :=
  { name := "shell", description := "Emergency Shell", type := SvcType.simple,
    exec_start := "/bin/sh", foreground := true }

def load_services_from :
    List (List String) → List (String × ServiceDef) →
    Option (List (String × ServiceDef))
  | [], reg => some reg
  | f :: fs, reg =>
    match parse_service_file f with
    | none => none
    | some svc =>
      load_services_from fs
        (if svc.name = "" then reg else regInsert reg svc.name svc)

/-- `load_services()`: register the built-in `shell`, then parse every
`*.service` file of the service directory (`files` is their contents, in
scan order) into the registry. -/
def load_services (files : List (List String)) :
    Option (List (String × ServiceDef)) :=
  load_services_from files (regInsert [] "shell" builtinShell)

theorem lookup_append_left {β : Type} (l1 l2 : List (String × β)) (k : String)
    (v : β) (h : l1.lookup k = some v) : (l1 ++ l2).lookup k = some v := by
  induction l1 with
  | nil => simp at h
  | cons hd tl ih =>
    obtain ⟨kk, vv⟩ := hd
    rw [List.cons_append, List.lookup_cons]
    rw [List.lookup_cons] at h
    cases hkk : (k == kk) with
    | true => rw [hkk] at h; simpa using h
    | false => rw [hkk] at h; exact ih h

/-- `regInsert` never removes a present key. -/
theorem regInsert_keeps_key (reg : List (String × ServiceDef)) (k n : String)
    (v : ServiceDef) (h : (reg.lookup n).isSome = true) :
    ((regInsert reg k v).lookup n).isSome = true := by
  rw [regInsert]
  by_cases hmem : (reg.lookup k).isSome
  · rw [if_pos hmem]
    by_cases hnk : n = k
    · subst hnk
      rw [lookup_map_update_self reg n (fun _ => v)]
      obtain ⟨w, hw⟩ := Option.isSome_iff_exists.mp h
      rw [hw]
      rfl
    · rw [lookup_map_update_ne reg k n (fun _ => v) hnk]
      exact h
  · rw [if_neg hmem]
    obtain ⟨w, hw⟩ := Option.isSome_iff_exists.mp h
    rw [lookup_append_left reg [(k, v)] n w hw]
    rfl

theorem regInsert_other (reg : List (String × ServiceDef)) (k n : String)
    (v : ServiceDef) (hne : k ≠ n) :
    (regInsert reg k v).lookup n = reg.lookup n := by
  rw [regInsert]
  by_cases hmem : (reg.lookup k).isSome
  · rw [if_pos hmem]
    exact lookup_map_update_ne reg k n (fun _ => v) (fun hc => hne hc.symm)
  · rw [if_neg hmem]
    induction reg with
    | nil =>
      rw [List.nil_append, List.lookup_cons]
      have hb : (n == k) = false := by simp [Ne.symm hne]
      rw [hb]
    | cons hd tl ih =>
      obtain ⟨kk, vv⟩ := hd
      rw [List.cons_append, List.lookup_cons, List.lookup_cons]
      cases hkk : (n == kk) with
      | true => rfl
      | false =>
        rw [List.lookup_cons] at hmem
        cases hkk2 : (k == kk) with
        | true =>
          rw [hkk2] at hmem
          simp at hmem
        | false =>
          rw [hkk2] at hmem
          exact ih hmem

theorem load_services_from_shell (files : List (List String)) :
    ∀ (reg reg' : List (String × ServiceDef)),
      load_services_from files reg = some reg' →
      (((reg.lookup "shell").isSome = true →
          ((reg'.lookup "shell").isSome = true)) ∧
       ((∀ f ∈ files, ∀ svc, parse_service_file f = some svc →
            svc.name ≠ "shell") →
          reg'.lookup "shell" = reg.lookup "shell")) := by
  induction files with
  | nil =>
    intro reg reg' h
    simp only [load_services_from, Option.some.injEq] at h
    subst h
    exact ⟨fun hx => hx, fun _ => rfl⟩
  | cons f fs ih =>
    intro reg reg' h
    simp only [load_services_from] at h
    split at h
    · exact Option.noConfusion h
    · next svc hp =>
      by_cases hname : svc.name = ""
      · rw [if_pos hname] at h
        obtain ⟨ih1, ih2⟩ := ih reg reg' h
        exact ⟨ih1, fun hnone => ih2 (fun g hg s hs => hnone g (by simp [hg]) s hs)⟩
      · rw [if_neg hname] at h
        obtain ⟨ih1, ih2⟩ := ih (regInsert reg svc.name svc) reg' h
        constructor
        · intro hx
          exact ih1 (regInsert_keeps_key reg svc.name "shell" svc hx)
        · intro hnone
          have hns : svc.name ≠ "shell" :=
            hnone f (by simp) svc hp
          rw [ih2 (fun g hg s hs => hnone g (by simp [hg]) s hs)]
          exact regInsert_other reg svc.name "shell" svc hns

/-- Claim C10, counterexample: a service directory containing a file that
defines a service named `shell` replaces the built-in record: the
registry's `shell` then execs `/bin/bash` in the background rather than
the built-in foreground `/bin/sh` emergency shell — so the registry does
not contain the built-in shell service regardless of directory contents
(though a `shell` entry still resolves). -/
theorem shell_service_file_overrides_builtin :
    (load_services [["[Service]", "name=shell", "exec_start=/bin/bash"]]).map
        (fun reg => (reg.lookup "shell").map ServiceDef.exec_start) =
      some (some "/bin/bash") ∧
    (load_services [["[Service]", "name=shell", "exec_start=/bin/bash"]]).map
        (fun reg => (reg.lookup "shell").map ServiceDef.foreground) =
      some (some false) ∧
    builtinShell.exec_start = "/bin/sh" ∧ builtinShell.foreground = true :=
  ⟨by decide, by decide, by decide, by decide⟩

/-- Claim C10 [amended]: whenever `load_services` completes, the registry
contains an entry named `shell`, so the fallback `start_service("shell")`
taken when the tty bucket is empty always resolves to an existing service;
that entry is the built-in foreground `/bin/sh` emergency shell unless a
service file in the directory defines a service named `shell`, in which
case the file's definition replaces the built-in one.  (`load_services`
may also fail to complete at all: a `restart_delay` value `std::stoi`
cannot parse raises an uncaught exception.) -/
theorem load_services_shell_resolves (files : List (List String))
    (reg : List (String × ServiceDef)) (h : load_services files = some reg) :
    ((reg.lookup "shell").isSome = true) ∧
    ((∀ f ∈ files, ∀ svc, parse_service_file f = some svc →
        svc.name ≠ "shell") →
      reg.lookup "shell" = some builtinShell) := by
  rw [load_services] at h
  obtain ⟨h1, h2⟩ :=
    load_services_from_shell files (regInsert [] "shell" builtinShell) reg h
  constructor
  · exact h1 (by rw [regInsert]; simp)
  · intro hnone
    rw [h2 hnone, regInsert]
    simp

/-- Claim C10, witness: the amended theorem for a directory with one
non-shell service file. -/
theorem load_services_shell_resolves_witness :
    (((load_services [["[Service]", "name=getty", "exec_start=/sbin/poyo"]]).getD
        []).lookup "shell").isSome = true := by
  have h := load_services_shell_resolves
    [["[Service]", "name=getty", "exec_start=/sbin/poyo"]]
    ((load_services [["[Service]", "name=getty", "exec_start=/sbin/poyo"]]).getD [])
    (by decide)
  exact h.1

/-! ## Poyo Login: authenticate_user (main.c lines 307-365, non-PAM build) -/

/-- `crypt(password, stored)` as an oracle: `none` is a NULL return. -/
def CryptFn : Type := String → String → Option String

/-- `authenticate_user(username, password)` in the shadow build: requires
effective uid 0; a missing shadow entry fails; a stored hash beginning
with `!` or `*` fails (logged as locked); an empty hash succeeds with any
password; otherwise the crypt of the supplied plaintext under the stored
hash must equal the stored hash (a NULL crypt fails).  `shadowHash` is the
`sp_pwdp` of the user's shadow entry, if any. -/
def authenticate_user (euid : Nat) (shadowHash : Option String)
    (cryptFn : CryptFn) (password : String) : Bool :=
  if euid ≠ 0 then false
  else
    match shadowHash with
    | none => false
    | some h =>
      match h.data with
      | [] => true
      | c :: _ =>
        if c = '!' || c = '*' then false
        else
          match cryptFn password h with
          | none => false
          | some enc => enc = h

/-- Claim C6 [confirmed]: running as root, shadow authentication branches
exactly as specified on the stored hash: a hash beginning with `*` fails,
one beginning with `!!` fails, one beginning with a single `!` fails, the
empty hash succeeds with any supplied password, and any other hash
authenticates iff the computed crypt of the plaintext equals the stored
hash. -/
theorem authenticate_user_branches (cryptFn : CryptFn) (password : String) :
    (∀ h rest, h.data = '*' :: rest →
      authenticate_user 0 (some h) cryptFn password = false) ∧
    (∀ h rest, h.data = '!' :: '!' :: rest →
      authenticate_user 0 (some h) cryptFn password = false) ∧
    (∀ h rest, h.data = '!' :: rest →
      authenticate_user 0 (some h) cryptFn password = false) ∧
    (authenticate_user 0 (some "") cryptFn password = true) ∧
    (∀ h c rest, h.data = c :: rest → c ≠ '!' → c ≠ '*' →
      ∀ enc, cryptFn password h = some enc →
        (authenticate_user 0 (some h) cryptFn password = true ↔ enc = h)) := by
  refine ⟨?_, ?_, ?_, ?_, ?_⟩
  · intro h rest hh
    simp [authenticate_user, hh]
  · intro h rest hh
    simp [authenticate_user, hh]
  · intro h rest hh
    simp [authenticate_user, hh]
  · simp [authenticate_user]
  · intro h c rest hh hbang hstar enc henc
    simp only [authenticate_user, if_neg (by decide : ¬(0 : Nat) ≠ 0), hh]
    rw [if_neg (by simp [hbang, hstar])]
    rw [show cryptFn password h = some enc from henc]
    simp

/-- Claim C6, witness: the branch characterization applied to an identity
crypt oracle — a locked hash fails, the empty hash lets an arbitrary
password in, and a matching hash authenticates. -/
theorem authenticate_user_branches_witness :
    authenticate_user 0 (some "!hash") (fun _ s => some s) "secret" = false ∧
    authenticate_user 0 (some "") (fun _ s => some s) "anything" = true ∧
    (authenticate_user 0 (some "h9") (fun _ s => some s) "secret" = true ↔
      "h9" = "h9") :=
  ⟨(authenticate_user_branches (fun _ s => some s) "secret").2.2.1 "!hash"
      "hash".data (by decide),
   (authenticate_user_branches (fun _ s => some s) "anything").2.2.2.1,
   (authenticate_user_branches (fun _ s => some s) "secret").2.2.2.2 "h9" 'h'
      "9".data (by decide) (by decide) (by decide) "h9" rfl⟩

/-! ## Poyo Login: start_shell (main.c lines 445-516) -/

/-- Process credentials as the kernel reports them: real/effective
uid/gid. -/
structure Creds where
  ruid : Nat
  euid : Nat
  rgid : Nat
  egid : Nat
deriving DecidableEq

/-- The passwd fields `start_shell` uses. -/
structure PwdEntry where
  pw_name : String
  pw_uid : Nat
  pw_gid : Nat
  pw_dir : String
  pw_shell : String
deriving DecidableEq

/-- The kernel's responses to the privilege-drop calls, as oracles over
the current credentials: each returns success and the credentials
afterwards (so a call may fail, or succeed without producing the expected
ids — the readback check is what the claim is about). -/
structure OsOracle where
  chdir_home_ok : Bool
  chdir_root_ok : Bool
  initgroups_res : Creds → Bool × Creds
  setgid_res : Nat → Creds → Bool × Creds
  setuid_res : Nat → Creds → Bool × Creds

/-- How `start_shell` ends: `exitedFailure` is `exit(EXIT_FAILURE)`;
`execed path argv0 creds` is reaching `execl(path, argv0, NULL)` with the
process credentials at that moment. -/
inductive ShellOutcome
  | exitedFailure
  | execed (path : String) (argv0 : String) (creds : Creds)
deriving DecidableEq

/-- `strrchr(shell, '/')`: the basename used for `argv[0]`. -/
def shellBasename (s : String) : String :=
  if s.data.contains '/' then
    String.mk ((s.data.reverse.takeWhile (fun c => c ≠ '/')).reverse)
  else s

/-- The shell to exec: `pw_shell`, defaulting to `/bin/sh` when empty. -/
def shellPath (pwd : PwdEntry) : String :=
  if pwd.pw_shell = "" then "/bin/sh" else pwd.pw_shell

/-- `start_shell(pwd)`: chdir home (fall back to `/`, exiting if both
fail); `initgroups`, `setgid`, `setuid` in order, exiting on the first
failure; re-read the real and effective uid and gid and exit unless all
four equal the target; then (after the motd, which does not affect
control flow) exec the login shell with a `-`-prefixed argv[0]. -/
def start_shell (os : OsOracle) (pwd : PwdEntry) (c : Creds) : ShellOutcome :=
  if !os.chdir_home_ok && !os.chdir_root_ok then ShellOutcome.exitedFailure
  else
    match os.initgroups_res c with
    | (false, _) => ShellOutcome.exitedFailure
    | (true, c1) =>
      match os.setgid_res pwd.pw_gid c1 with
      | (false, _) => ShellOutcome.exitedFailure
      | (true, c2) =>
        match os.setuid_res pwd.pw_uid c2 with
        | (false, _) => ShellOutcome.exitedFailure
        | (true, c3) =>
          if c3.ruid = pwd.pw_uid ∧ c3.euid = pwd.pw_uid ∧
             c3.rgid = pwd.pw_gid ∧ c3.egid = pwd.pw_gid then
            ShellOutcome.execed (shellPath pwd)
              ("-" ++ shellBasename (shellPath pwd)) c3
          else ShellOutcome.exitedFailure

/-- Claim C5 [confirmed]: whatever the kernel does, `start_shell` reaches
the exec only with credentials whose re-read real and effective uid and
gid all equal the target user's; any mismatch (or any failed drop call)
exits before the exec. -/
theorem exec_only_after_verified_drop (os : OsOracle) (pwd : PwdEntry)
    (c : Creds) (path argv0 : String) (creds : Creds)
    (h : start_shell os pwd c = ShellOutcome.execed path argv0 creds) :
    creds.ruid = pwd.pw_uid ∧ creds.euid = pwd.pw_uid ∧
    creds.rgid = pwd.pw_gid ∧ creds.egid = pwd.pw_gid ∧
    path = shellPath pwd ∧ argv0 = "-" ++ shellBasename (shellPath pwd) := by
  rw [start_shell] at h
  split at h
  · exact ShellOutcome.noConfusion h
  · split at h
    · exact ShellOutcome.noConfusion h
    · split at h
      · exact ShellOutcome.noConfusion h
      · split at h
        · exact ShellOutcome.noConfusion h
        · split at h
          · next c3 hver =>
            obtain ⟨h1, h2, h3⟩ := ShellOutcome.execed.inj h
            subst h3
            exact ⟨hver.1, hver.2.1, hver.2.2.1, hver.2.2.2, h1.symm, h2.symm⟩
          · exact ShellOutcome.noConfusion h

/-- An honest kernel: every drop call succeeds and sets the requested
ids. -/
def honestKernel : OsOracle :=
  { chdir_home_ok := true, chdir_root_ok := true,
    initgroups_res := fun c => (true, c),
    setgid_res := fun g c => (true, { c with rgid := g, egid := g }),
    setuid_res := fun u c => (true, { c with ruid := u, euid := u }) }

def alicePwd : PwdEntry :=
  { pw_name := "alice", pw_uid := 1000, pw_gid := 1000,
    pw_dir := "/home/alice", pw_shell := "/bin/bash" }

/-- Claim C5, witness: under the honest kernel, alice's login execs
`/bin/bash` as `-bash` with all four ids 1000 — obtained from the theorem
at the concrete run. -/
theorem exec_only_after_verified_drop_witness :
    (⟨1000, 1000, 1000, 1000⟩ : Creds).ruid = alicePwd.pw_uid ∧
    (⟨1000, 1000, 1000, 1000⟩ : Creds).euid = alicePwd.pw_uid ∧
    (⟨1000, 1000, 1000, 1000⟩ : Creds).rgid = alicePwd.pw_gid ∧
    (⟨1000, 1000, 1000, 1000⟩ : Creds).egid = alicePwd.pw_gid ∧
    "/bin/bash" = shellPath alicePwd ∧
    "-bash" = "-" ++ shellBasename (shellPath alicePwd) :=
  exec_only_after_verified_drop honestKernel alicePwd ⟨0, 0, 0, 0⟩
    "/bin/bash" "-bash" ⟨1000, 1000, 1000, 1000⟩ (by decide)

/-! ## Poyo Login: main startup (main.c lines 519-548) -/

/-- The actions `main` can perform before entering the login loop.  The
TTY-binding constructors (`closeStdio` through `setCanonicalMode`) are the
steps §4.8 of the spec prescribes for a TTY path given as `argv[1]`; they
exist in the vocabulary so their absence from the emitted trace is
expressible. -/
inductive PoyoStartupAction
  | disableCoreDumps
  | setupSignals
  | openSyslog
  | exitNotRoot
  | getHostname
  | enterLoginLoop
  | closeStdio
  | openTty (path : String)
  | newSession
  | setControllingTty
  | dupToStdio
  | setCanonicalMode
deriving DecidableEq

/-- The startup sequence of Poyo's `main(argc, argv)`: disable core dumps,
ignore SIGINT/SIGQUIT/SIGTSTP, open syslog, verify the effective uid is 0
(exiting otherwise), read the hostname and enter the login loop.  Both
parameters `argc`/`argv` are declared `__attribute__((unused))` and the
body never reads them. -/
def poyo_main_startup (argv : List String) (euid : Nat) :
    List PoyoStartupAction :=
  [PoyoStartupAction.disableCoreDumps, PoyoStartupAction.setupSignals,
   PoyoStartupAction.openSyslog] ++
    (if euid ≠ 0 then [PoyoStartupAction.exitNotRoot]
     else [PoyoStartupAction.getHostname, PoyoStartupAction.enterLoginLoop])

/-- Claim C7, counterexample: invoked as `poyo /dev/tty1` (as Init's
`login-tty1` service does), Poyo performs exactly the same startup as with
no argument: it never closes fds 0/1/2, never opens `/dev/tty1`, starts no
new session, sets no controlling TTY — `argv` is ignored outright. -/
theorem poyo_ignores_tty_argument :
    poyo_main_startup ["poyo", "/dev/tty1"] 0 = poyo_main_startup ["poyo"] 0 ∧
    PoyoStartupAction.openTty "/dev/tty1" ∉
      poyo_main_startup ["poyo", "/dev/tty1"] 0 ∧
    PoyoStartupAction.closeStdio ∉ poyo_main_startup ["poyo", "/dev/tty1"] 0 ∧
    PoyoStartupAction.newSession ∉ poyo_main_startup ["poyo", "/dev/tty1"] 0 ∧
    PoyoStartupAction.setControllingTty ∉
      poyo_main_startup ["poyo", "/dev/tty1"] 0 :=
  ⟨by decide, by decide, by decide, by decide, by decide⟩

/-- Claim C7 [amended]: Poyo's `main` ignores its argument vector — with
or without a TTY device path in `argv[1]` it performs the identical
startup on its inherited stdio, and no TTY-binding action (close 0/1/2,
open the device, setsid, controlling-TTY ioctl, dup to 0/1/2, canonical
mode) ever occurs. -/
theorem poyo_startup_ignores_argv (argv argv' : List String) (euid : Nat) :
    poyo_main_startup argv euid = poyo_main_startup argv' euid ∧
    (∀ p, PoyoStartupAction.openTty p ∉ poyo_main_startup argv euid) ∧
    PoyoStartupAction.closeStdio ∉ poyo_main_startup argv euid ∧
    PoyoStartupAction.newSession ∉ poyo_main_startup argv euid ∧
    PoyoStartupAction.setControllingTty ∉ poyo_main_startup argv euid ∧
    PoyoStartupAction.dupToStdio ∉ poyo_main_startup argv euid ∧
    PoyoStartupAction.setCanonicalMode ∉ poyo_main_startup argv euid := by
  refine ⟨rfl, ?_, ?_, ?_, ?_, ?_, ?_⟩ <;>
    first
    | (intro p
       by_cases h : euid ≠ 0 <;> simp [poyo_main_startup, h])
    | (by_cases h : euid ≠ 0 <;> simp [poyo_main_startup, h])

/-- Claim C7, witness: the amended theorem at the `poyo /dev/tty1`
invocation as root. -/
theorem poyo_startup_ignores_argv_witness :
    poyo_main_startup ["poyo", "/dev/tty1"] 0 = poyo_main_startup [] 0 ∧
    (∀ p, PoyoStartupAction.openTty p ∉
      poyo_main_startup ["poyo", "/dev/tty1"] 0) ∧
    PoyoStartupAction.closeStdio ∉ poyo_main_startup ["poyo", "/dev/tty1"] 0 ∧
    PoyoStartupAction.newSession ∉ poyo_main_startup ["poyo", "/dev/tty1"] 0 ∧
    PoyoStartupAction.setControllingTty ∉
      poyo_main_startup ["poyo", "/dev/tty1"] 0 ∧
    PoyoStartupAction.dupToStdio ∉ poyo_main_startup ["poyo", "/dev/tty1"] 0 ∧
    PoyoStartupAction.setCanonicalMode ∉
      poyo_main_startup ["poyo", "/dev/tty1"] 0 :=
  poyo_startup_ignores_argv ["poyo", "/dev/tty1"] [] 0

end Galactica
